import Mathlib

/-
Verification of the Train Master question pipeline.

This file gives a shallow embedding of the question data model
(src/types.ts), the question generator with its cache saturation policy,
static fallback set, drag-and-drop constructor, duplicate detection and
image-store pruning (src/services/db.ts), and the per-session question
buffer and mission state machine of the main application component
(src/unnamed/part_005).  Asynchronous effects are modelled by explicit
oracle inputs (random draws, database and network results) and by an
interleaving event semantics; JavaScript floats are modelled as rationals
and machine integers as naturals.
-/

/- ===== Data model (src/types.ts) ===== -/

inductive Subject where
  | MATH
  | LANGUAGE
  | LOGIC
  | PHYSICS
deriving DecidableEq, Repr

inductive QuestionType where
  | MULTIPLE_CHOICE
  | DRAG_AND_DROP
deriving DecidableEq, Repr

structure DragDropConfig where
  itemEmoji : String
  targetCount : Nat
  totalItems : Nat
  containerName : String
  sourceName : Option String
  verb : Option String
deriving DecidableEq, Repr

structure Question where
  id : Nat
  type : QuestionType
  text : String
  options : Option (List String)
  correctAnswerIndex : Option Nat
  dragDropConfig : Option DragDropConfig
  explanation : String
  difficultyLevel : Nat
  visualSubject : Option String
  preloadedImageUrl : Option String
deriving DecidableEq, Repr

/- ===== generateDragDropQuestion (src/services/db.ts lines 1093-1128) =====
   The source draws Math.random() four times: to pick the item archetype
   (floor among 9 items), the target count (floor over 5 or 7 values
   depending on difficulty), and the extra pool size (floor over 4 values).
   Those draws are passed in as Fin arguments; crypto.randomUUID is the
   freshId argument. -/

structure DragDropItem where
  emoji : String
  name : String
  container : String
  source : String
  verb : String
deriving DecidableEq, Repr

def dragDropItems : List DragDropItem :=
  [ { emoji := "🐮", name := "KOSSOR", container := "BOSKAPSVAGNEN", source := "LASTKAJEN", verb := "LASTA PÅ" },
    { emoji := "📦", name := "LÅDOR", container := "GODSVAGNEN", source := "LASTKAJEN", verb := "LASTA PÅ" },
    { emoji := "🪵", name := "TIMMER", container := "TIMMERVAGNEN", source := "LASTKAJEN", verb := "LASTA PÅ" },
    { emoji := "🧳", name := "VÄSKOR", container := "PASSAGERARVAGNEN", source := "PERRONGEN", verb := "LASTA PÅ" },
    { emoji := "⚙️", name := "KUGGHJUL", container := "VERKSTADSVAGNEN", source := "VERKSTADEN", verb := "LÄMNA" },
    { emoji := "🍽️", name := "TALLRIKAR", container := "BISTRO-BORDET", source := "KÖKSLUCKAN", verb := "DUKA FRAM" },
    { emoji := "🥤", name := "MUGGAR", container := "BORDET", source := "DISKEN", verb := "STÄLL FRAM" },
    { emoji := "🥄", name := "SKEDAR", container := "BORDET", source := "LÅDAN", verb := "DUKA FRAM" },
    { emoji := "🍎", name := "ÄPPLEN", container := "FRUKTSKÅLEN", source := "KORGEN", verb := "LÄGG I" } ]

theorem dragDropItems_length : dragDropItems.length = 9 := rfl

def generateDragDropQuestion (difficulty : Nat) (rItem : Fin 9) (rTarget1 : Fin 5)
    (rTarget2 : Fin 7) (rExtra : Fin 4) (freshId : Nat) : Question :=
  let selectedItem := dragDropItems.get (Fin.cast dragDropItems_length.symm rItem)
  let targetCount := if difficulty = 1 then rTarget1.val + 1 else rTarget2.val + 4
  let totalItems := targetCount + rExtra.val + 2
  { id := freshId,
    type := QuestionType.DRAG_AND_DROP,
    text := selectedItem.verb ++ " " ++ toString targetCount ++ " ST " ++ selectedItem.name ++ ".",
    options := none,
    correctAnswerIndex := none,
    dragDropConfig := some
      { itemEmoji := selectedItem.emoji,
        targetCount := targetCount,
        totalItems := totalItems,
        containerName := selectedItem.container,
        sourceName := some selectedItem.source,
        verb := some selectedItem.verb },
    explanation := "BRA JOBBAT! NU ÄR DET KLART.",
    difficultyLevel := difficulty,
    visualSubject := none,
    preloadedImageUrl := none }

def dndTargetCount (q : Question) : Nat :=
  (q.dragDropConfig.map DragDropConfig.targetCount).getD 0

def dndTotalItems (q : Question) : Nat :=
  (q.dragDropConfig.map DragDropConfig.totalItems).getD 0

/-- C8: every question built by generateDragDropQuestion carries a
dragDropConfig with totalItems strictly greater than targetCount, has a
targetCount in 1..5 at difficulty 1 and in 4..10 otherwise, and has no
options and no correctAnswerIndex.  The construction is a pure function of
its random draws, with no network oracle input. -/
theorem generateDragDropQuestion_spec (difficulty : Nat) (rItem : Fin 9) (rTarget1 : Fin 5)
    (rTarget2 : Fin 7) (rExtra : Fin 4) (freshId : Nat) :
    (generateDragDropQuestion difficulty rItem rTarget1 rTarget2 rExtra
      freshId).dragDropConfig.isSome = true ∧
    dndTargetCount (generateDragDropQuestion difficulty rItem rTarget1 rTarget2 rExtra
        freshId) <
      dndTotalItems (generateDragDropQuestion difficulty rItem rTarget1 rTarget2 rExtra
        freshId) ∧
    (difficulty = 1 →
      1 ≤ dndTargetCount (generateDragDropQuestion difficulty rItem rTarget1 rTarget2 rExtra
          freshId) ∧
      dndTargetCount (generateDragDropQuestion difficulty rItem rTarget1 rTarget2 rExtra
        freshId) ≤ 5) ∧
    (difficulty ≠ 1 →
      4 ≤ dndTargetCount (generateDragDropQuestion difficulty rItem rTarget1 rTarget2 rExtra
          freshId) ∧
      dndTargetCount (generateDragDropQuestion difficulty rItem rTarget1 rTarget2 rExtra
        freshId) ≤ 10) ∧
    (generateDragDropQuestion difficulty rItem rTarget1 rTarget2 rExtra
      freshId).options = none ∧
    (generateDragDropQuestion difficulty rItem rTarget1 rTarget2 rExtra
      freshId).correctAnswerIndex = none ∧
    (generateDragDropQuestion difficulty rItem rTarget1 rTarget2 rExtra
      freshId).type = QuestionType.DRAG_AND_DROP := by
  refine ⟨rfl, ?_, ?_, ?_, rfl, rfl, rfl⟩
  · simp only [generateDragDropQuestion, dndTargetCount, dndTotalItems]
    simp
    omega
  · intro h
    have := rTarget1.isLt
    simp [generateDragDropQuestion, dndTargetCount, h]
    omega
  · intro h
    have := rTarget2.isLt
    simp [generateDragDropQuestion, dndTargetCount, if_neg h]
    omega

/-- Witness for C8: concrete evaluations at difficulty 1 and difficulty 3. -/
theorem generateDragDropQuestion_spec_witness :
    (1 ≤ dndTargetCount (generateDragDropQuestion 1 0 0 0 0 0) ∧
      dndTargetCount (generateDragDropQuestion 1 0 0 0 0 0) ≤ 5) ∧
    (4 ≤ dndTargetCount (generateDragDropQuestion 3 0 0 0 0 0) ∧
      dndTargetCount (generateDragDropQuestion 3 0 0 0 0 0) ≤ 10) ∧
    dndTargetCount (generateDragDropQuestion 3 0 0 0 0 0) <
      dndTotalItems (generateDragDropQuestion 3 0 0 0 0 0) :=
  ⟨(generateDragDropQuestion_spec 1 0 0 0 0 0).2.2.1 rfl,
   (generateDragDropQuestion_spec 3 0 0 0 0 0).2.2.2.1 (by decide),
   (generateDragDropQuestion_spec 3 0 0 0 0 0).2.1⟩

/- ===== Static fallback set (src/services/db.ts lines 991-1019) =====
   The source omits the id field (Omit<Question, 'id'>); here the id is a
   placeholder 0 and is overwritten on use, exactly as the source does. -/

def FALLBACK_QUESTIONS : List Question :=
  [ { id := 0,
      type := QuestionType.MULTIPLE_CHOICE,
      text := "VILKEN PLANET ÄR NÄRMAST SOLEN?",
      options := some ["JORDEN", "MARS", "MERKURIUS", "VENUS"],
      correctAnswerIndex := some 2,
      dragDropConfig := none,
      explanation := "MERKURIUS ÄR DEN MINSTA OCH NÄRMASTE PLANETEN.",
      difficultyLevel := 2,
      visualSubject := some "Planet Mercury in space",
      preloadedImageUrl := none },
    { id := 0,
      type := QuestionType.MULTIPLE_CHOICE,
      text := "VAD BLIR 5 + 5?",
      options := some ["8", "9", "10", "11"],
      correctAnswerIndex := some 2,
      dragDropConfig := none,
      explanation := "5 PLUS 5 ÄR LIKA MED 10. DU HAR 10 FINGRAR!",
      difficultyLevel := 1,
      visualSubject := none,
      preloadedImageUrl := none },
    { id := 0,
      type := QuestionType.MULTIPLE_CHOICE,
      text := "VILKET AV DESSA ÄR INTE ETT DJUR?",
      options := some ["KATT", "HUND", "BUSS", "HÄST"],
      correctAnswerIndex := some 2,
      dragDropConfig := none,
      explanation := "EN BUSS ÄR ETT FORDON, INTE ETT DJUR.",
      difficultyLevel := 1,
      visualSubject := some "A yellow bus",
      preloadedImageUrl := none } ]

theorem FALLBACK_QUESTIONS_length : FALLBACK_QUESTIONS.length = 3 := rfl

/- ===== fetchFromAIAndSave (src/services/db.ts lines 1266-1352) =====
   The network call and JSON parse are modelled by an oracle response; a
   successful response is turned into an uppercased MULTIPLE_CHOICE
   question exactly as the source constructs it.  The prompt text,
   useDigits, car count and ban list only shape the request and are
   absorbed into the oracle. -/

structure AiQuestionData where
  questionText : String
  options : List String
  correctAnswerIndex : Nat
  explanation : String
  visualSubject : Option String
deriving DecidableEq, Repr

def fetchFromAIAndSave (hasApiKey : Bool) (difficulty : Nat)
    (response : Except Unit AiQuestionData) (freshId : Nat) : Except Unit Question :=
  if !hasApiKey then Except.error ()
  else
    match response with
    | Except.error e => Except.error e
    | Except.ok data =>
        Except.ok
          { id := freshId,
            type := QuestionType.MULTIPLE_CHOICE,
            text := data.questionText.toUpper,
            options := some (data.options.map String.toUpper),
            correctAnswerIndex := some data.correctAnswerIndex,
            dragDropConfig := none,
            explanation := data.explanation.toUpper,
            difficultyLevel := difficulty,
            visualSubject := data.visualSubject,
            preloadedImageUrl := none }

/- ===== generateQuestion (src/services/db.ts lines 1422-1487) =====
   All suspension points are oracles collected in GenEnv: the two
   Math.random() draws, the DB count, the DB samples (with and without the
   difficulty filter), the AI response, and the fresh UUIDs minted for each
   returned copy.  Fallible awaits are Except values; the try/catch of the
   source is the match on generateQuestionTry. -/

deriving instance DecidableEq for Except

structure GenEnv where
  dragRoll : ℚ
  rItem : Fin 9
  rTarget1 : Fin 5
  rTarget2 : Fin 7
  rExtra : Fin 4
  dndFreshId : Nat
  countResult : Except Unit Nat
  aiRoll : ℚ
  sampleResult : Except Unit (Option Question)
  sampleFreshId : Nat
  aiResponse : Except Unit AiQuestionData
  aiFreshId : Nat
  rescueResult : Except Unit (Option Question)
  rescueFreshId : Nat
  fallbackRoll : Fin 3
  fallbackFreshId : Nat
deriving DecidableEq, Repr

def aiProbabilityOf (dbCount : Nat) (hasApiKey : Bool) : ℚ :=
  let aiProbability : ℚ :=
    if dbCount < 100 then 1
    else if dbCount < 200 then 2/5
    else 1/20
  if !hasApiKey then 0 else aiProbability

def dndBranchTaken (env : GenEnv) (subject : Subject) (difficulty : Nat)
    (previousType : Option QuestionType) (allowDragDrop : Bool) : Bool :=
  (decide (subject = Subject.MATH) && decide (difficulty ≤ 2) &&
      !(decide (previousType = some QuestionType.DRAG_AND_DROP)) && allowDragDrop) &&
    decide (env.dragRoll < 3/10)

def generateQuestionTry (env : GenEnv) (hasApiKey : Bool) (difficulty : Nat) :
    Except Unit Question :=
  match env.countResult with
  | Except.error e => Except.error e
  | Except.ok dbCount =>
    let aiProbability := aiProbabilityOf dbCount hasApiKey
    let forceAI := decide (env.aiRoll < aiProbability)
    let aiPath : Except Unit Question :=
      if !hasApiKey then Except.error ()
      else fetchFromAIAndSave hasApiKey difficulty env.aiResponse env.aiFreshId
    if !forceAI then
      match env.sampleResult with
      | Except.error e => Except.error e
      | Except.ok (some dbQuestion) => Except.ok { dbQuestion with id := env.sampleFreshId }
      | Except.ok none => aiPath
    else aiPath

def generateQuestionCatch (env : GenEnv) (difficulty : Nat) : Question :=
  match env.rescueResult with
  | Except.ok (some rescueQuestion) => { rescueQuestion with id := env.rescueFreshId }
  | _ =>
    let fallbackBase :=
      FALLBACK_QUESTIONS.get (Fin.cast FALLBACK_QUESTIONS_length.symm env.fallbackRoll)
    { fallbackBase with id := env.fallbackFreshId, difficultyLevel := difficulty }

def generateQuestion (env : GenEnv) (hasApiKey : Bool) (subject : Subject) (difficulty : Nat)
    (previousType : Option QuestionType) (allowDragDrop : Bool) : Question :=
  if dndBranchTaken env subject difficulty previousType allowDragDrop then
    generateDragDropQuestion difficulty env.rItem env.rTarget1 env.rTarget2 env.rExtra
      env.dndFreshId
  else
    match generateQuestionTry env hasApiKey difficulty with
    | Except.ok q => q
    | Except.error _ => generateQuestionCatch env difficulty

/-- C4: the probability used to decide between invoking the AI generator
and sampling the cache is exactly 1 below 100 stored questions, 2/5 from
100 to below 200, and 1/20 from 200 on; it is forced to 0 when no API key
is available, in which case the random draw can never select the AI path
and the cache sample is consulted; and the probability is non-increasing
in the stored count. -/
theorem aiProbability_schedule :
    (∀ n : Nat, n < 100 → aiProbabilityOf n true = 1) ∧
    (∀ n : Nat, 100 ≤ n → n < 200 → aiProbabilityOf n true = 2/5) ∧
    (∀ n : Nat, 200 ≤ n → aiProbabilityOf n true = 1/20) ∧
    (∀ n : Nat, aiProbabilityOf n false = 0) ∧
    (∀ (n : Nat) (r : ℚ), 0 ≤ r → ¬(r < aiProbabilityOf n false)) ∧
    (∀ (hasApiKey : Bool) (n m : Nat), n ≤ m →
      aiProbabilityOf m hasApiKey ≤ aiProbabilityOf n hasApiKey) ∧
    (∀ (env : GenEnv) (difficulty : Nat) (q : Question),
      0 ≤ env.aiRoll → env.sampleResult = Except.ok (some q) →
      (∃ n : Nat, env.countResult = Except.ok n) →
      generateQuestionTry env false difficulty = Except.ok { q with id := env.sampleFreshId }) := by
  have hzero : ∀ n : Nat, aiProbabilityOf n false = 0 := by
    intro n; simp [aiProbabilityOf]
  refine ⟨?_, ?_, ?_, hzero, ?_, ?_, ?_⟩
  · intro n h; simp [aiProbabilityOf, h]
  · intro n h1 h2; simp [aiProbabilityOf, h2, Nat.not_lt.mpr h1]
  · intro n h
    have h1 : ¬n < 100 := by omega
    have h2 : ¬n < 200 := by omega
    simp [aiProbabilityOf, h1, h2]
  · intro n r hr
    rw [hzero]
    exact not_lt.mpr hr
  · intro hasApiKey n m hnm
    cases hasApiKey
    · simp [hzero]
    · by_cases h1 : m < 100
      · have h2 : n < 100 := by omega
        simp [aiProbabilityOf, h1, h2]
      · by_cases h3 : m < 200
        · by_cases h4 : n < 100
          · simp [aiProbabilityOf, h1, h3, h4]; norm_num
          · simp [aiProbabilityOf, h1, h3, h4, show n < 200 by omega]
        · simp only [aiProbabilityOf, h1, h3, if_false, Bool.not_true]
          by_cases h4 : n < 100
          · simp [h4]; norm_num
          · by_cases h5 : n < 200
            · simp [h4, h5]
              norm_num
            · simp [h4, h5]
  · intro env difficulty q hroll hsample ⟨n, hcount⟩
    have hforce : decide (env.aiRoll < aiProbabilityOf n false) = false := by
      simp [hzero, not_lt.mpr hroll]
    simp [generateQuestionTry, hcount, hforce, hsample]

/-- Witness for C4: concrete counts in each band of the saturation curve. -/
theorem aiProbability_schedule_witness :
    aiProbabilityOf 50 true = 1 ∧ aiProbabilityOf 150 true = 2/5 ∧
    aiProbabilityOf 250 true = 1/20 ∧ aiProbabilityOf 250 false = 0 ∧
    aiProbabilityOf 250 true ≤ aiProbabilityOf 150 true :=
  ⟨aiProbability_schedule.1 50 (by decide),
   aiProbability_schedule.2.1 150 (by decide) (by decide),
   aiProbability_schedule.2.2.1 250 (by decide),
   aiProbability_schedule.2.2.2.1 250,
   aiProbability_schedule.2.2.2.2.2.1 true 150 250 (by decide)⟩

theorem generateQuestionTry_error (env : GenEnv) (hasApiKey : Bool) (difficulty : Nat)
    (hAI : hasApiKey = false ∨ env.aiResponse = Except.error ())
    (hSample : env.sampleResult = Except.ok none ∨ env.sampleResult = Except.error ()) :
    generateQuestionTry env hasApiKey difficulty = Except.error () := by
  have hfetch : fetchFromAIAndSave hasApiKey difficulty env.aiResponse env.aiFreshId =
      Except.error () := by
    rcases hAI with h | h
    · simp [h, fetchFromAIAndSave]
    · cases hasApiKey <;> simp [fetchFromAIAndSave, h]
  cases hcount : env.countResult with
  | error e => simp [generateQuestionTry, hcount]
  | ok n =>
    rcases hSample with h | h <;>
      simp only [generateQuestionTry, hcount] <;>
      by_cases hf : decide (env.aiRoll < aiProbabilityOf n hasApiKey) = true <;>
      simp [hf, h, hfetch]

/-- C3: when AI generation is unavailable or fails and the cache sample for
the (subject, difficulty) pair is empty or fails, generateQuestion still
returns a question: it first retries the cache ignoring difficulty, and if
that rescue is also empty or fails it returns a member of the fixed,
non-empty, locally bundled FALLBACK_QUESTIONS set (with a fresh id and the
requested difficulty), so no error ever reaches the caller. -/
theorem generateQuestion_terminal_fallback (env : GenEnv) (hasApiKey : Bool) (subject : Subject)
    (difficulty : Nat) (previousType : Option QuestionType) (allowDragDrop : Bool)
    (hBranch : dndBranchTaken env subject difficulty previousType allowDragDrop = false)
    (hAI : hasApiKey = false ∨ env.aiResponse = Except.error ())
    (hSample : env.sampleResult = Except.ok none ∨ env.sampleResult = Except.error ()) :
    FALLBACK_QUESTIONS.length = 3 ∧
    (∀ q : Question, env.rescueResult = Except.ok (some q) →
      generateQuestion env hasApiKey subject difficulty previousType allowDragDrop =
        { q with id := env.rescueFreshId }) ∧
    ((env.rescueResult = Except.ok none ∨ env.rescueResult = Except.error ()) →
      ∃ base ∈ FALLBACK_QUESTIONS,
        generateQuestion env hasApiKey subject difficulty previousType allowDragDrop =
          { base with id := env.fallbackFreshId, difficultyLevel := difficulty }) := by
  have htry := generateQuestionTry_error env hasApiKey difficulty hAI hSample
  refine ⟨rfl, ?_, ?_⟩
  · intro q hq
    simp [generateQuestion, hBranch, htry, generateQuestionCatch, hq]
  · intro hrescue
    refine ⟨FALLBACK_QUESTIONS.get (Fin.cast FALLBACK_QUESTIONS_length.symm env.fallbackRoll),
      List.get_mem _ _ _, ?_⟩
    rcases hrescue with h | h <;>
      simp [generateQuestion, hBranch, htry, generateQuestionCatch, h]

/-- Witness for C3: a fully failing environment with no API key and empty
stores still yields a fallback question. -/
theorem generateQuestion_terminal_fallback_witness :
    ∃ base ∈ FALLBACK_QUESTIONS,
      generateQuestion
        { dragRoll := 1/2, rItem := 0, rTarget1 := 0, rTarget2 := 0, rExtra := 0,
          dndFreshId := 7, countResult := Except.error (), aiRoll := 1/2,
          sampleResult := Except.error (), sampleFreshId := 8,
          aiResponse := Except.error (), aiFreshId := 9,
          rescueResult := Except.error (), rescueFreshId := 10,
          fallbackRoll := 1, fallbackFreshId := 11 }
        false Subject.LOGIC 3 none false =
        { base with id := 11, difficultyLevel := 3 } :=
  (generateQuestion_terminal_fallback _ false Subject.LOGIC 3 none false
    (by decide) (Or.inl rfl) (Or.inr rfl)).2.2 (Or.inr rfl)

/- ===== Local image store (src/services/db.ts lines 386-453) =====
   The IndexedDB object store for images is keyed by prompt, so it is a
   list of records on which put is an upsert by prompt and delete removes
   the records with the given prompt.  saveImage first compresses (length
   of the record list is unaffected), then prunes, then puts; the cloud
   write does not touch the local store. -/

def MAX_STORED_IMAGES : Nat := 50

structure ImageRecord where
  prompt : String
  base64 : String
  timestamp : Nat
deriving DecidableEq, Repr

def pruneImages (store : List ImageRecord) : List ImageRecord :=
  if MAX_STORED_IMAGES ≤ store.length then
    let allImgs := store
    if MAX_STORED_IMAGES ≤ allImgs.length then
      let sorted := allImgs.insertionSort (fun a b => a.timestamp ≤ b.timestamp)
      let targetDelete := store.length - MAX_STORED_IMAGES + 1
      let toRemove := sorted.take targetDelete
      store.filter (fun r => !((toRemove.map ImageRecord.prompt).contains r.prompt))
    else store
  else store

def saveImage (store : List ImageRecord) (prompt base64 : String) (timestamp : Nat) :
    List ImageRecord :=
  let pruned := pruneImages store
  let record : ImageRecord := { prompt := prompt, base64 := base64, timestamp := timestamp }
  if pruned.any (fun r => r.prompt == prompt) then
    pruned.map (fun r => if r.prompt == prompt then record else r)
  else pruned ++ [record]

theorem pruneImages_le (store : List ImageRecord) :
    (pruneImages store).length ≤ store.length := by
  unfold pruneImages
  dsimp only
  split
  · exact List.length_filter_le _ _
  · exact le_rfl

theorem pruneImages_length_of_ge (store : List ImageRecord)
    (h : MAX_STORED_IMAGES ≤ store.length) :
    (pruneImages store).length ≤ MAX_STORED_IMAGES - 1 := by
  have hprune : pruneImages store =
      store.filter (fun r =>
        !((((store.insertionSort (fun a b => a.timestamp ≤ b.timestamp)).take
            (store.length - MAX_STORED_IMAGES + 1)).map ImageRecord.prompt).contains
          r.prompt)) := by
    unfold pruneImages
    rw [if_pos h, if_pos h]
  set sorted := store.insertionSort (fun a b => a.timestamp ≤ b.timestamp) with hsorted
  set targetDelete := store.length - MAX_STORED_IMAGES + 1 with htd
  set toRemove := sorted.take targetDelete with htr
  set p : ImageRecord → Bool := fun r => (toRemove.map ImageRecord.prompt).contains r.prompt
    with hp
  have hlen : (pruneImages store).length = store.countP (fun r => !(p r)) := by
    rw [hprune, ← List.countP_eq_length_filter]
  have hsplit := List.length_eq_countP_add_countP p store
  have hcongr : store.countP (fun a => decide ¬(p a = true)) = store.countP (fun r => !(p r)) := by
    apply List.countP_congr
    intro x _
    cases hx : p x <;> simp [hx]
  have hsortlen : sorted.length = store.length :=
    List.length_insertionSort _ store
  have htdle : targetDelete ≤ sorted.length := by
    rw [hsortlen]
    have : 0 < MAX_STORED_IMAGES := by norm_num [MAX_STORED_IMAGES]
    omega
  have hcount : targetDelete ≤ store.countP p := by
    have hperm : store.countP p = sorted.countP p :=
      (List.Perm.countP_eq p (List.perm_insertionSort _ store)).symm
    have hdecomp : sorted.countP p = toRemove.countP p + (sorted.drop targetDelete).countP p := by
      conv_lhs => rw [← List.take_append_drop targetDelete sorted]
      rw [List.countP_append]
    have hall : toRemove.countP p = toRemove.length := by
      rw [List.countP_eq_length]
      intro r hr
      have : r.prompt ∈ toRemove.map ImageRecord.prompt := List.mem_map_of_mem _ hr
      simpa [hp] using List.elem_eq_true_of_mem this
    have htake : toRemove.length = targetDelete := by
      rw [htr, List.length_take]
      omega
    omega
  have hmax : MAX_STORED_IMAGES = 50 := rfl
  omega

/-- C10: after every completed saveImage the local image store holds at
most MAX_STORED_IMAGES (50) records: when the store already holds 50 or
more, pruneImages removes the oldest records by timestamp down to at most
49 (re-establishing the bound even from an over-limit state), and the
subsequent keyed put adds at most one record; pruning never invents
records. -/
theorem saveImage_bounded (store : List ImageRecord) (prompt base64 : String) (timestamp : Nat) :
    (MAX_STORED_IMAGES ≤ store.length →
      (pruneImages store).length ≤ MAX_STORED_IMAGES - 1) ∧
    (saveImage store prompt base64 timestamp).length ≤ MAX_STORED_IMAGES ∧
    (∀ r ∈ pruneImages store, r ∈ store) := by
  refine ⟨fun h => pruneImages_length_of_ge store h, ?_, ?_⟩
  · have hpruned : (pruneImages store).length ≤ MAX_STORED_IMAGES - 1 ∨
        (pruneImages store).length ≤ store.length ∧ store.length < MAX_STORED_IMAGES := by
      by_cases h : MAX_STORED_IMAGES ≤ store.length
      · exact Or.inl (pruneImages_length_of_ge store h)
      · exact Or.inr ⟨pruneImages_le store, by omega⟩
    unfold saveImage
    dsimp only
    split
    · rw [List.length_map]
      have : MAX_STORED_IMAGES = 50 := rfl
      omega
    · rw [List.length_append]
      have : MAX_STORED_IMAGES = 50 := rfl
      simp only [List.length_cons, List.length_nil]
      omega
  · intro r hr
    unfold pruneImages at hr
    dsimp only at hr
    split at hr
    · exact List.mem_of_mem_filter hr
    · exact hr

/-- Witness for C10: a concrete 55-record store is pruned to at most 49
records before the put. -/
theorem saveImage_bounded_witness :
    MAX_STORED_IMAGES ≤ ((List.range 55).map
      (fun i => ({ prompt := toString i, base64 := "x", timestamp := i } : ImageRecord))).length ∧
    (pruneImages ((List.range 55).map
      (fun i => ({ prompt := toString i, base64 := "x", timestamp := i } : ImageRecord)))).length ≤
      MAX_STORED_IMAGES - 1 :=
  ⟨by simp [MAX_STORED_IMAGES],
   (saveImage_bounded ((List.range 55).map
      (fun i => ({ prompt := toString i, base64 := "x", timestamp := i } : ImageRecord)))
      "p" "b" 0).1 (by simp [MAX_STORED_IMAGES])⟩

/- ===== Duplicate detection (src/services/db.ts lines 51-96 and 628-662) =====
   JavaScript string helpers are modelled character-wise: toLowerCase,
   toUpperCase and trim map over the character list (ASCII case folding);
   the regex match of digit runs is a character scan; the default
   Array.sort comparator is lexicographic, here charListLe.  Similarity is
   an exact rational in place of the JS float. -/

def toLowerStr (s : String) : String := String.mk (s.data.map Char.toLower)

def toUpperStr (s : String) : String := String.mk (s.data.map Char.toUpper)

def trimStr (s : String) : String :=
  String.mk (((s.data.dropWhile Char.isWhitespace).reverse.dropWhile Char.isWhitespace).reverse)

def levInner (a : Char) : List Char → List Nat → Nat → List Nat
  | b :: bs, diag :: up :: rest, left =>
      let v := if a = b then diag else Nat.min (Nat.min diag left) up + 1
      v :: levInner a bs (up :: rest) v
  | _, _, _ => []

def levRowsAux (s2 : List Char) : List Char → List Nat → List Nat
  | [], prev => prev
  | a :: as, prev =>
      let first := prev.headD 0 + 1
      levRowsAux s2 as (first :: levInner a s2 prev first)

def editDistance (s1 s2 : String) : Nat :=
  let t1 := toLowerStr s1
  let t2 := toLowerStr s2
  (levRowsAux t2.data t1.data (List.range (t2.data.length + 1))).getLastD 0

def getSimilarity (s1 s2 : String) : ℚ :=
  let longer := if s1.length < s2.length then s2 else s1
  let shorter := if s1.length < s2.length then s1 else s2
  let longerLength := longer.length
  if longerLength = 0 then 1
  else ((longerLength : ℚ) - editDistance longer shorter) / longerLength

def charListLe : List Char → List Char → Bool
  | [], _ => true
  | _ :: _, [] => false
  | a :: as, b :: bs => if a < b then true else if b < a then false else charListLe as bs

def digitRunsAux : List Char → List Char → List String
  | [], acc => if acc.isEmpty then [] else [String.mk acc.reverse]
  | c :: cs, acc =>
    if c.isDigit then digitRunsAux cs (c :: acc)
    else if acc.isEmpty then digitRunsAux cs []
    else String.mk acc.reverse :: digitRunsAux cs []

def extractNumbersFingerprint (text : String) : String :=
  let nums := digitRunsAux text.data []
  if nums.isEmpty then ""
  else String.intercalate "," (nums.insertionSort (fun a b => charListLe a.data b.data = true))

/- identifyDuplicates operates on raw cloud records: an id, a text, an
   optional subject and a difficulty level. -/

structure DupQuestion where
  id : String
  text : String
  subject : Option Subject
  difficultyLevel : Nat
deriving DecidableEq, Repr

def subjectsDiffer : Option Subject → Option Subject → Bool
  | some a, some b => decide (a ≠ b)
  | _, _ => false

def isDuplicateOf (q : DupQuestion) (text qNums : String) (unique : DupQuestion) : Bool :=
  if subjectsDiffer unique.subject q.subject then false
  else if unique.difficultyLevel ≠ q.difficultyLevel then false
  else if extractNumbersFingerprint unique.text ≠ qNums then false
  else decide (85/100 < getSimilarity text (toUpperStr unique.text))

def identifyDuplicatesAux : List DupQuestion → List DupQuestion → List String
  | [], _ => []
  | q :: rest, uniqueQuestions =>
    if (toUpperStr (trimStr q.text)).length < 5 then
      identifyDuplicatesAux rest uniqueQuestions
    else if uniqueQuestions.any (isDuplicateOf q (toUpperStr (trimStr q.text))
        (extractNumbersFingerprint (toUpperStr (trimStr q.text)))) then
      q.id :: identifyDuplicatesAux rest uniqueQuestions
    else identifyDuplicatesAux rest (uniqueQuestions ++ [q])

def keptAux : List DupQuestion → List DupQuestion → List DupQuestion
  | [], uniqueQuestions => uniqueQuestions
  | q :: rest, uniqueQuestions =>
    if (toUpperStr (trimStr q.text)).length < 5 then
      keptAux rest uniqueQuestions
    else if uniqueQuestions.any (isDuplicateOf q (toUpperStr (trimStr q.text))
        (extractNumbersFingerprint (toUpperStr (trimStr q.text)))) then
      keptAux rest uniqueQuestions
    else keptAux rest (uniqueQuestions ++ [q])

def identifyDuplicates (questions : List DupQuestion) : List String :=
  identifyDuplicatesAux questions []

def markedAsDup (uniqueQuestions : List DupQuestion) (q : DupQuestion) : Bool :=
  !decide ((toUpperStr (trimStr q.text)).length < 5) &&
    uniqueQuestions.any (isDuplicateOf q (toUpperStr (trimStr q.text))
      (extractNumbersFingerprint (toUpperStr (trimStr q.text))))

theorem cons_split {α : Type} (q : α) (rest : List α) (P : List α → α → Prop) :
    (∃ pre x post, q :: rest = pre ++ x :: post ∧ P pre x) ↔
      P [] q ∨ ∃ pre x post, rest = pre ++ x :: post ∧ P (q :: pre) x := by
  constructor
  · rintro ⟨pre, x, post, heq, hP⟩
    cases pre with
    | nil =>
      simp only [List.nil_append, List.cons.injEq] at heq
      exact Or.inl (heq.1 ▸ hP)
    | cons p pre =>
      simp only [List.cons_append, List.cons.injEq] at heq
      exact Or.inr ⟨pre, x, post, heq.2, heq.1 ▸ hP⟩
  · rintro (h | ⟨pre, x, post, heq, hP⟩)
    · exact ⟨[], q, rest, rfl, h⟩
    · exact ⟨q :: pre, x, post, by rw [heq, List.cons_append], hP⟩

theorem identifyDuplicatesAux_mem (qs : List DupQuestion) :
    ∀ (uniques : List DupQuestion) (qid : String),
    qid ∈ identifyDuplicatesAux qs uniques ↔
      ∃ pre q post, qs = pre ++ q :: post ∧ q.id = qid ∧
        markedAsDup (keptAux pre uniques) q = true := by
  induction qs with
  | nil =>
    intro uniques qid
    simp [identifyDuplicatesAux]
  | cons q rest ih =>
    intro uniques qid
    rw [cons_split q rest (fun pre x => x.id = qid ∧ markedAsDup (keptAux pre uniques) x = true)]
    by_cases hshort : (toUpperStr (trimStr q.text)).length < 5
    · rw [show identifyDuplicatesAux (q :: rest) uniques = identifyDuplicatesAux rest uniques
        from by simp [identifyDuplicatesAux, hshort]]
      rw [ih uniques qid]
      have hmarked : markedAsDup (keptAux [] uniques) q = false := by
        simp [markedAsDup, hshort, keptAux]
      have hkept : ∀ pre, keptAux (q :: pre) uniques = keptAux pre uniques := fun pre => by
        simp [keptAux, hshort]
      simp only [hkept, hmarked]
      simp
    · by_cases hany : uniques.any (isDuplicateOf q (toUpperStr (trimStr q.text))
          (extractNumbersFingerprint (toUpperStr (trimStr q.text)))) = true
      · rw [show identifyDuplicatesAux (q :: rest) uniques =
            q.id :: identifyDuplicatesAux rest uniques
          from by simp [identifyDuplicatesAux, hshort, hany]]
        have hkept : ∀ pre, keptAux (q :: pre) uniques = keptAux pre uniques := fun pre => by
          simp [keptAux, hshort, hany]
        have hmarked : markedAsDup (keptAux [] uniques) q = true := by
          simp [markedAsDup, hshort, keptAux, hany]
        simp only [List.mem_cons, ih uniques qid, hkept, hmarked]
        constructor
        · rintro (h | h)
          · exact Or.inl ⟨h.symm, trivial⟩
          · exact Or.inr h
        · rintro (⟨h, _⟩ | h)
          · exact Or.inl h.symm
          · exact Or.inr h
      · rw [show identifyDuplicatesAux (q :: rest) uniques =
            identifyDuplicatesAux rest (uniques ++ [q])
          from by simp [identifyDuplicatesAux, hshort, hany]]
        rw [ih (uniques ++ [q]) qid]
        have hmarked : markedAsDup (keptAux [] uniques) q = false := by
          simp [markedAsDup, keptAux, hany]
        have hkept : ∀ pre, keptAux (q :: pre) uniques = keptAux pre (uniques ++ [q]) :=
          fun pre => by simp [keptAux, hshort, hany]
        simp only [hkept, hmarked]
        simp

theorem keptAux_mem (qs : List DupQuestion) :
    ∀ (uniques : List DupQuestion) (u : DupQuestion),
      u ∈ keptAux qs uniques → u ∈ uniques ∨ u ∈ qs := by
  induction qs with
  | nil =>
    intro uniques u hu
    simp only [keptAux] at hu
    exact Or.inl hu
  | cons q rest ih =>
    intro uniques u hu
    simp only [keptAux] at hu
    split at hu
    · rcases ih uniques u hu with h | h
      · exact Or.inl h
      · exact Or.inr (List.mem_cons_of_mem _ h)
    · split at hu
      · rcases ih uniques u hu with h | h
        · exact Or.inl h
        · exact Or.inr (List.mem_cons_of_mem _ h)
      · rcases ih (uniques ++ [q]) u hu with h | h
        · rcases List.mem_append.mp h with h2 | h2
          · exact Or.inl h2
          · simp only [List.mem_singleton] at h2
            exact Or.inr (h2 ▸ List.mem_cons_self _ _)
        · exact Or.inr (List.mem_cons_of_mem _ h)

theorem identifyDuplicatesAux_sub (qs : List DupQuestion) :
    ∀ (uniques : List DupQuestion) (qid : String),
      qid ∈ identifyDuplicatesAux qs uniques → qid ∈ qs.map DupQuestion.id := by
  induction qs with
  | nil =>
    intro uniques qid h
    simp [identifyDuplicatesAux] at h
  | cons q rest ih =>
    intro uniques qid h
    simp only [identifyDuplicatesAux] at h
    split at h
    · exact List.mem_cons_of_mem _ (ih uniques qid h)
    · split at h
      · rcases List.mem_cons.mp h with h2 | h2
        · simp [h2]
        · exact List.mem_cons_of_mem _ (ih uniques qid h2)
      · exact List.mem_cons_of_mem _ (ih (uniques ++ [q]) qid h)

theorem keptAux_not_dup (qs : List DupQuestion) :
    ∀ (uniques : List DupQuestion),
      (qs.map DupQuestion.id).Nodup →
      (∀ u ∈ uniques, u.id ∉ qs.map DupQuestion.id) →
      ∀ u ∈ keptAux qs uniques, u.id ∉ identifyDuplicatesAux qs uniques := by
  induction qs with
  | nil =>
    intro uniques _ _ u _ h
    simp [identifyDuplicatesAux] at h
  | cons q rest ih =>
    intro uniques hnodup hdisj u hu
    have hnodup2 : (rest.map DupQuestion.id).Nodup := (List.nodup_cons.mp hnodup).2
    have hhead : q.id ∉ rest.map DupQuestion.id := (List.nodup_cons.mp hnodup).1
    simp only [keptAux] at hu
    simp only [identifyDuplicatesAux]
    split at hu
    · rename_i hshort
      rw [if_pos hshort]
      exact ih uniques hnodup2
        (fun v hv => fun hmem => hdisj v hv (List.mem_cons_of_mem _ hmem)) u hu
    · rename_i hshort
      rw [if_neg hshort]
      split at hu
      · rename_i hany
        rw [if_pos hany]
        intro hmem
        rcases List.mem_cons.mp hmem with h2 | h2
        · rcases keptAux_mem rest uniques u hu with h3 | h3
          · exact hdisj u h3 (h2 ▸ List.mem_cons_self _ _)
          · exact hhead (h2 ▸ List.mem_map_of_mem DupQuestion.id h3)
        · exact ih uniques hnodup2
            (fun v hv => fun hmem2 => hdisj v hv (List.mem_cons_of_mem _ hmem2)) u hu h2
      · rename_i hany
        rw [if_neg hany]
        refine ih (uniques ++ [q]) hnodup2 ?_ u hu
        intro v hv
        rcases List.mem_append.mp hv with h2 | h2
        · exact fun hmem => hdisj v h2 (List.mem_cons_of_mem _ hmem)
        · simp only [List.mem_singleton] at h2
          exact h2 ▸ hhead

theorem isDuplicateOf_iff (q unique : DupQuestion) (text qNums : String) (us qsub : Subject)
    (hu : unique.subject = some us) (hq : q.subject = some qsub) :
    isDuplicateOf q text qNums unique = true ↔
      us = qsub ∧ unique.difficultyLevel = q.difficultyLevel ∧
        extractNumbersFingerprint unique.text = qNums ∧
        85/100 < getSimilarity text (toUpperStr unique.text) := by
  simp only [isDuplicateOf, subjectsDiffer, hu, hq]
  by_cases h1 : us = qsub
  · by_cases h2 : unique.difficultyLevel = q.difficultyLevel
    · by_cases h3 : extractNumbersFingerprint unique.text = qNums
      · simp [h1, h2, h3]
      · simp [h1, h2, h3]
    · simp [h1, h2]
  · simp [h1]

/-- C9: a question is reported by identifyDuplicates exactly when some
already-kept earlier question matches it; a kept question is a candidate
match only when it has the same subject, the same difficulty level and the
same sorted fingerprint of numeric literals, and among candidates the
match is decided exactly by the normalized similarity ratio exceeding
0.85; kept (first-seen) questions are never reported as duplicates. -/
theorem identifyDuplicates_spec :
    (∀ (qs : List DupQuestion) (qid : String),
      qid ∈ identifyDuplicates qs ↔
        ∃ pre q post, qs = pre ++ q :: post ∧ q.id = qid ∧
          markedAsDup (keptAux pre []) q = true) ∧
    (∀ (q unique : DupQuestion) (text qNums : String) (us qsub : Subject),
      unique.subject = some us → q.subject = some qsub →
      (isDuplicateOf q text qNums unique = true ↔
        us = qsub ∧ unique.difficultyLevel = q.difficultyLevel ∧
          extractNumbersFingerprint unique.text = qNums ∧
          85/100 < getSimilarity text (toUpperStr unique.text))) ∧
    (∀ qs : List DupQuestion, (qs.map DupQuestion.id).Nodup →
      ∀ u ∈ keptAux qs [], u.id ∉ identifyDuplicates qs) :=
  ⟨fun qs qid => identifyDuplicatesAux_mem qs [] qid,
   fun q unique text qNums us qsub hu hq => isDuplicateOf_iff q unique text qNums us qsub hu hq,
   fun qs hnodup u hu => keptAux_not_dup qs [] hnodup (by simp) u hu⟩

def dupDemoA : DupQuestion :=
  { id := "a", text := "VAD BLIR 1 + 5?", subject := some Subject.MATH, difficultyLevel := 1 }

def dupDemoB : DupQuestion :=
  { id := "b", text := "VAD BLIR 1 + 5?", subject := some Subject.MATH, difficultyLevel := 1 }

/-- Witness for C9: the characterization instantiated on a concrete
one-question list, the candidate conditions instantiated on a concrete
pair, and the kept question of the concrete list not reported. -/
theorem identifyDuplicates_spec_witness :
    (("a" ∈ identifyDuplicates [dupDemoA] ↔
      ∃ pre q post, [dupDemoA] = pre ++ q :: post ∧ q.id = "a" ∧
        markedAsDup (keptAux pre []) q = true)) ∧
    ((isDuplicateOf dupDemoB "X" "1,5" dupDemoA = true ↔
      Subject.MATH = Subject.MATH ∧ dupDemoA.difficultyLevel = dupDemoB.difficultyLevel ∧
        extractNumbersFingerprint dupDemoA.text = "1,5" ∧
        85/100 < getSimilarity "X" (toUpperStr dupDemoA.text))) ∧
    (∀ u ∈ keptAux [dupDemoA] [], u.id ∉ identifyDuplicates [dupDemoA]) :=
  ⟨identifyDuplicates_spec.1 [dupDemoA] "a",
   identifyDuplicates_spec.2.1 dupDemoB dupDemoA "X" "1,5" Subject.MATH Subject.MATH rfl rfl,
   identifyDuplicates_spec.2.2 [dupDemoA] (by decide)⟩

/- ===== Per-session buffer and mission state machine (src/unnamed/part_005) =====
   The React component state relevant to the question pipeline: the active
   subject flag, the question buffer, the in-flight fetch counter
   (fetchingCountRef), the drag-and-drop throttle flag, the current
   question, the mission progress and the number of reward cars granted.
   Asynchronous interleaving is modelled by an event step function: fetch
   completions, fetch failures, buffer top-ups and image arrivals occur as
   separate events in any order.  Each step also reports the question it
   delivers to the display, if any. -/

def MISSION_TARGET : Nat := 5

def BUFFER_TARGET_SIZE : Nat := 5

structure SessionState where
  selectedSubject : Bool
  questionBuffer : List Question
  fetchingCount : Nat
  hasDragDropOccurred : Bool
  currentQuestion : Option Question
  missionProgress : Nat
  carsCount : Nat
deriving DecidableEq, Repr

structure SessionConfig where
  subject : Subject
  difficulty : Nat
  hasApiKey : Bool
deriving DecidableEq, Repr

def initialSessionState : SessionState :=
  { selectedSubject := false, questionBuffer := [], fetchingCount := 0,
    hasDragDropOccurred := false, currentQuestion := none, missionProgress := 0,
    carsCount := 0 }

/- ensureBufferFilled (lines 222-243): needed = BUFFER_TARGET_SIZE -
   (buffer length + inflight); if needed ≤ 0 no-op, else launch exactly
   needed fetch tasks, incrementing the inflight counter per task. -/
def ensureBufferFilled (s : SessionState) : SessionState :=
  let needed : Int := (BUFFER_TARGET_SIZE : Int) -
    ((s.questionBuffer.length : Int) + (s.fetchingCount : Int))
  if needed ≤ 0 then s
  else { s with fetchingCount := s.fetchingCount + needed.toNat }

/- fetchSingleBufferItem (lines 245-287) computes whether a new fetch may
   produce a DRAG_AND_DROP question from the throttle flag and the
   current buffer content. -/
def fetchAllowDragDrop (s : SessionState) : Bool :=
  !s.hasDragDropOccurred &&
    !(s.questionBuffer.any (fun q => decide (q.type = QuestionType.DRAG_AND_DROP)))

/- loadNextQuestion (lines 328-399): find the first buffered question that
   is not a throttled DRAG_AND_DROP; serve it, set the throttle flag if it
   is a DRAG_AND_DROP, and prune every other DRAG_AND_DROP from the buffer
   when the flag is (or becomes) set.  If no buffered question is
   eligible, perform the emergency synchronous generateQuestion with
   allowDragDrop forced to false and kick a top-up. -/
def loadNextQuestion (cfg : SessionConfig) (s : SessionState) (env : GenEnv) :
    SessionState × Option Question :=
  let validNextIndex := s.questionBuffer.findIdx
    (fun q => !(s.hasDragDropOccurred && decide (q.type = QuestionType.DRAG_AND_DROP)))
  if h : validNextIndex < s.questionBuffer.length then
    let nextQ := s.questionBuffer.get ⟨validNextIndex, h⟩
    let isSelectedDnD := decide (nextQ.type = QuestionType.DRAG_AND_DROP)
    let newFlag := s.hasDragDropOccurred || isSelectedDnD
    let shouldPruneDnD := isSelectedDnD || s.hasDragDropOccurred
    let newBuffer := (s.questionBuffer.enum.filter (fun p =>
      !(decide (p.1 = validNextIndex)) &&
        !(shouldPruneDnD && decide (p.2.type = QuestionType.DRAG_AND_DROP)))).map Prod.snd
    ({ s with
        questionBuffer := newBuffer, hasDragDropOccurred := newFlag,
        currentQuestion := some nextQ }, some nextQ)
  else
    let q := generateQuestion env cfg.hasApiKey cfg.subject cfg.difficulty
      ((s.currentQuestion.map Question.type)) false
    (ensureBufferFilled { s with currentQuestion := some q }, some q)

inductive SessionEvent where
  | startMission (q : Question)
  | next (env : GenEnv)
  | topUp
  | taskComplete (q : Question)
  | taskFail
  | imageResolve (qid : Nat) (url : String)
deriving DecidableEq, Repr

/- step: one atomic segment of the cooperative schedule.
   startMission (lines 402-466): reset progress, throttle flag and buffer,
     deliver the first (preloaded or directly generated) question, set the
     flag if it is a DRAG_AND_DROP, and top the buffer up.
   next (handleNext, lines 505-532): increment the mission progress; on
     reaching MISSION_TARGET grant a car and return to the menu, otherwise
     load the next question.
   topUp: the buffer-monitoring effect (lines 290-295) running
     ensureBufferFilled.
   taskComplete (lines 245-287 with 235-241): a fetch resolves and appends
     its question at the back of the buffer, then decrements the inflight
     counter; a resolution can only happen while a fetch is in flight.
   taskFail: a fetch fails; the error is swallowed and only the inflight
     counter is decremented.
   imageResolve (lines 264-283): a background image arrives and is
     attached by question id to the buffered copy and, if the question has
     become current meanwhile, to the current question. -/
def step (cfg : SessionConfig) (s : SessionState) : SessionEvent →
    SessionState × Option Question
  | SessionEvent.startMission q =>
    (ensureBufferFilled
      { selectedSubject := true, questionBuffer := [], fetchingCount := s.fetchingCount,
        hasDragDropOccurred := decide (q.type = QuestionType.DRAG_AND_DROP),
        currentQuestion := some q, missionProgress := 0, carsCount := s.carsCount },
      some q)
  | SessionEvent.next env =>
    if !s.selectedSubject then (s, none)
    else
      if MISSION_TARGET ≤ s.missionProgress + 1 then
        ({ s with
            missionProgress := s.missionProgress + 1, carsCount := s.carsCount + 1,
            selectedSubject := false, questionBuffer := [] }, none)
      else
        loadNextQuestion cfg { s with missionProgress := s.missionProgress + 1 } env
  | SessionEvent.topUp => (ensureBufferFilled s, none)
  | SessionEvent.taskComplete q =>
    if s.fetchingCount = 0 then (s, none)
    else ({ s with
        questionBuffer := s.questionBuffer ++ [q],
        fetchingCount := s.fetchingCount - 1 }, none)
  | SessionEvent.taskFail =>
    ({ s with fetchingCount := s.fetchingCount - 1 }, none)
  | SessionEvent.imageResolve qid url =>
    ({ s with
        questionBuffer := s.questionBuffer.map (fun q =>
          if q.id = qid then { q with preloadedImageUrl := some url } else q),
        currentQuestion := match s.currentQuestion with
          | some c => if c.id = qid then some { c with preloadedImageUrl := some url }
              else some c
          | none => none }, none)

def runEvents (cfg : SessionConfig) (s : SessionState) : List SessionEvent → SessionState
  | [] => s
  | e :: es => runEvents cfg (step cfg s e).1 es

/- The number of DRAG_AND_DROP questions delivered to the display along a
   list of events. -/
def dndDeliveries (cfg : SessionConfig) (s : SessionState) : List SessionEvent → Nat
  | [] => 0
  | e :: es =>
    (match (step cfg s e).2 with
     | some q => if q.type = QuestionType.DRAG_AND_DROP then 1 else 0
     | none => 0) + dndDeliveries cfg (step cfg s e).1 es

theorem ensureBufferFilled_fetchingCount (s : SessionState) :
    (ensureBufferFilled s).fetchingCount = s.fetchingCount +
      (max 0 ((BUFFER_TARGET_SIZE : Int) -
        ((s.questionBuffer.length : Int) + (s.fetchingCount : Int)))).toNat ∧
    (ensureBufferFilled s).questionBuffer = s.questionBuffer := by
  unfold ensureBufferFilled
  dsimp only
  split
  · rename_i hneed
    constructor
    · dsimp only
      omega
    · rfl
  · rename_i hneed
    constructor
    · dsimp only
      omega
    · rfl

theorem ensureBufferFilled_bound (s : SessionState)
    (h : s.questionBuffer.length + s.fetchingCount ≤ BUFFER_TARGET_SIZE) :
    (ensureBufferFilled s).questionBuffer.length + (ensureBufferFilled s).fetchingCount ≤
      BUFFER_TARGET_SIZE := by
  obtain ⟨hf, hb⟩ := ensureBufferFilled_fetchingCount s
  rw [hf, hb]
  omega

theorem filtered_enum_length_le (l : List Question) (p : Nat × Question → Bool) :
    ((l.enum.filter p).map Prod.snd).length ≤ l.length := by
  rw [List.length_map]
  calc (l.enum.filter p).length ≤ l.enum.length := List.length_filter_le _ _
    _ = l.length := List.enum_length

theorem loadNextQuestion_bound (cfg : SessionConfig) (s : SessionState) (env : GenEnv)
    (h : s.questionBuffer.length + s.fetchingCount ≤ BUFFER_TARGET_SIZE) :
    (loadNextQuestion cfg s env).1.questionBuffer.length +
      (loadNextQuestion cfg s env).1.fetchingCount ≤ BUFFER_TARGET_SIZE := by
  unfold loadNextQuestion
  dsimp only
  split
  · dsimp only
    exact le_trans (Nat.add_le_add_right (filtered_enum_length_le s.questionBuffer _) _) h
  · exact ensureBufferFilled_bound _ h

theorem step_bound (cfg : SessionConfig) (s : SessionState) (e : SessionEvent)
    (h : s.questionBuffer.length + s.fetchingCount ≤ BUFFER_TARGET_SIZE) :
    (step cfg s e).1.questionBuffer.length + (step cfg s e).1.fetchingCount ≤
      BUFFER_TARGET_SIZE := by
  cases e with
  | startMission q =>
    simp only [step]
    exact ensureBufferFilled_bound _ (by simp; omega)
  | next env =>
    simp only [step]
    split
    · exact h
    · split
      · simpa using by omega
      · exact loadNextQuestion_bound cfg _ env (by simpa using h)
  | topUp =>
    simp only [step]
    exact ensureBufferFilled_bound _ h
  | taskComplete q =>
    simp only [step]
    split
    · exact h
    · simp
      omega
  | taskFail =>
    simp only [step]
    omega
  | imageResolve qid url =>
    simp only [step]
    simpa using h

theorem runEvents_bound (cfg : SessionConfig) (es : List SessionEvent) (s : SessionState)
    (h : s.questionBuffer.length + s.fetchingCount ≤ BUFFER_TARGET_SIZE) :
    (runEvents cfg s es).questionBuffer.length + (runEvents cfg s es).fetchingCount ≤
      BUFFER_TARGET_SIZE := by
  induction es generalizing s with
  | nil => exact h
  | cons e es ih =>
    exact ih (step cfg s e).1 (step_bound cfg s e h)

/-- C2: a top-up launches exactly max(0, targetBufferSize - (queue length +
inflight)) fetch tasks by bumping the inflight counter and leaves the
queue alone; a completion appends one question and decrements the
counter, a failure only decrements it; and along every event trace from
the initial state, queue length plus inflight never exceeds
BUFFER_TARGET_SIZE (5). -/
theorem buffer_target_invariant :
    (∀ (cfg : SessionConfig) (s : SessionState),
      (step cfg s SessionEvent.topUp).1.fetchingCount = s.fetchingCount +
        (max 0 ((BUFFER_TARGET_SIZE : Int) -
          ((s.questionBuffer.length : Int) + (s.fetchingCount : Int)))).toNat ∧
      (step cfg s SessionEvent.topUp).1.questionBuffer = s.questionBuffer) ∧
    (∀ (cfg : SessionConfig) (s : SessionState) (q : Question), 0 < s.fetchingCount →
      (step cfg s (SessionEvent.taskComplete q)).1.fetchingCount = s.fetchingCount - 1 ∧
      (step cfg s (SessionEvent.taskComplete q)).1.questionBuffer =
        s.questionBuffer ++ [q]) ∧
    (∀ (cfg : SessionConfig) (s : SessionState),
      (step cfg s SessionEvent.taskFail).1.fetchingCount = s.fetchingCount - 1) ∧
    (∀ (cfg : SessionConfig) (es : List SessionEvent),
      (runEvents cfg initialSessionState es).questionBuffer.length +
        (runEvents cfg initialSessionState es).fetchingCount ≤ BUFFER_TARGET_SIZE) := by
  refine ⟨?_, ?_, ?_, ?_⟩
  · intro cfg s
    exact ensureBufferFilled_fetchingCount s
  · intro cfg s q hpos
    simp only [step]
    rw [if_neg (by omega)]
    exact ⟨rfl, rfl⟩
  · intro cfg s
    rfl
  · intro cfg es
    exact runEvents_bound cfg es initialSessionState (by simp [initialSessionState])

/-- Witness for C2: a state with one in-flight fetch has its counter
decremented and the question appended on completion. -/
theorem buffer_target_invariant_witness :
    (step { subject := Subject.MATH, difficulty := 1, hasApiKey := false }
        { initialSessionState with fetchingCount := 1 }
        (SessionEvent.taskComplete (generateDragDropQuestion 1 0 0 0 0 0))).1.fetchingCount =
      0 ∧
    (step { subject := Subject.MATH, difficulty := 1, hasApiKey := false }
        { initialSessionState with fetchingCount := 1 }
        (SessionEvent.taskComplete (generateDragDropQuestion 1 0 0 0 0 0))).1.questionBuffer =
      [generateDragDropQuestion 1 0 0 0 0 0] :=
  buffer_target_invariant.2.1
    { subject := Subject.MATH, difficulty := 1, hasApiKey := false }
    { initialSessionState with fetchingCount := 1 }
    (generateDragDropQuestion 1 0 0 0 0 0) (by decide)

theorem ensureBufferFilled_misc (s : SessionState) :
    (ensureBufferFilled s).selectedSubject = s.selectedSubject ∧
    (ensureBufferFilled s).missionProgress = s.missionProgress ∧
    (ensureBufferFilled s).carsCount = s.carsCount ∧
    (ensureBufferFilled s).hasDragDropOccurred = s.hasDragDropOccurred ∧
    (ensureBufferFilled s).currentQuestion = s.currentQuestion := by
  unfold ensureBufferFilled
  dsimp only
  split
  · exact ⟨rfl, rfl, rfl, rfl, rfl⟩
  · exact ⟨rfl, rfl, rfl, rfl, rfl⟩

theorem loadNextQuestion_fields (cfg : SessionConfig) (s : SessionState) (env : GenEnv) :
    (loadNextQuestion cfg s env).1.missionProgress = s.missionProgress ∧
    (loadNextQuestion cfg s env).1.selectedSubject = s.selectedSubject ∧
    (loadNextQuestion cfg s env).1.carsCount = s.carsCount := by
  unfold loadNextQuestion
  dsimp only
  split
  · exact ⟨rfl, rfl, rfl⟩
  · obtain ⟨h1, h2, h3, _, _⟩ := ensureBufferFilled_misc
      { s with currentQuestion := some (generateQuestion env cfg.hasApiKey cfg.subject
          cfg.difficulty (Option.map Question.type s.currentQuestion) false) }
    exact ⟨h2, h1, h3⟩

def MissionInv (s : SessionState) : Prop :=
  s.missionProgress ≤ MISSION_TARGET ∧
    (s.selectedSubject = true → s.missionProgress < MISSION_TARGET)

theorem step_mission_inv (cfg : SessionConfig) (s : SessionState) (e : SessionEvent)
    (h : MissionInv s) : MissionInv (step cfg s e).1 := by
  obtain ⟨h1, h2⟩ := h
  cases e with
  | startMission q =>
    simp only [step]
    obtain ⟨hs, hp, _, _, _⟩ := ensureBufferFilled_misc
      { selectedSubject := true, questionBuffer := [], fetchingCount := s.fetchingCount,
        hasDragDropOccurred := decide (q.type = QuestionType.DRAG_AND_DROP),
        currentQuestion := some q, missionProgress := 0, carsCount := s.carsCount }
    exact ⟨by rw [hp]; simp [MISSION_TARGET], by rw [hp]; simp [MISSION_TARGET]⟩
  | next env =>
    simp only [step]
    split
    · exact ⟨h1, h2⟩
    · rename_i hsel
      simp only [Bool.not_eq_true', Bool.not_eq_false] at hsel
      split
      · rename_i hcomplete
        have hlt := h2 hsel
        constructor
        · dsimp only
          simp only [MISSION_TARGET] at hlt ⊢
          omega
        · dsimp only
          intro hfalse
          simp at hfalse
      · rename_i hcomplete
        obtain ⟨hp, hs, _⟩ := loadNextQuestion_fields cfg
          { s with missionProgress := s.missionProgress + 1 } env
        constructor
        · rw [hp]; dsimp only; omega
        · rw [hs, hp]; dsimp only; intro _; omega
  | topUp =>
    simp only [step]
    obtain ⟨hs, hp, _, _, _⟩ := ensureBufferFilled_misc s
    exact ⟨by rw [hp]; exact h1, by rw [hs, hp]; exact h2⟩
  | taskComplete q =>
    simp only [step]
    split
    · exact ⟨h1, h2⟩
    · exact ⟨h1, h2⟩
  | taskFail => exact ⟨h1, h2⟩
  | imageResolve qid url => exact ⟨h1, h2⟩

theorem runEvents_mission_inv (cfg : SessionConfig) (es : List SessionEvent)
    (s : SessionState) (h : MissionInv s) : MissionInv (runEvents cfg s es) := by
  induction es generalizing s with
  | nil => exact h
  | cons e es ih => exact ih (step cfg s e).1 (step_mission_inv cfg s e h)

/-- C7: the mission progress starts at 0 when a mission begins, changes
only by a single increment in handleNext (while a subject is selected) or
by the reset of a new mission, never exceeds the fixed target 5, and the
reward car is granted exactly when the incremented progress reaches the
target, at which point the session returns to the menu with progress
exactly at the target. -/
theorem mission_progress_spec :
    (∀ (cfg : SessionConfig) (es : List SessionEvent),
      (runEvents cfg initialSessionState es).missionProgress ≤ MISSION_TARGET ∧
      ((runEvents cfg initialSessionState es).selectedSubject = true →
        (runEvents cfg initialSessionState es).missionProgress < MISSION_TARGET)) ∧
    (∀ (cfg : SessionConfig) (s : SessionState) (q : Question),
      (step cfg s (SessionEvent.startMission q)).1.missionProgress = 0) ∧
    (∀ (cfg : SessionConfig) (s : SessionState) (e : SessionEvent),
      (step cfg s e).1.missionProgress ≠ s.missionProgress →
      ((∃ env, e = SessionEvent.next env ∧ s.selectedSubject = true ∧
          (step cfg s e).1.missionProgress = s.missionProgress + 1) ∨
        (∃ q, e = SessionEvent.startMission q ∧ (step cfg s e).1.missionProgress = 0))) ∧
    (∀ (cfg : SessionConfig) (s : SessionState) (e : SessionEvent),
      s.selectedSubject = true → s.missionProgress < MISSION_TARGET →
      ((step cfg s e).1.carsCount = s.carsCount + 1 ↔
        (∃ env, e = SessionEvent.next env) ∧ s.missionProgress + 1 = MISSION_TARGET)) ∧
    (∀ (cfg : SessionConfig) (s : SessionState) (env : GenEnv),
      s.selectedSubject = true → s.missionProgress + 1 = MISSION_TARGET →
      (step cfg s (SessionEvent.next env)).1.selectedSubject = false ∧
      (step cfg s (SessionEvent.next env)).1.missionProgress = MISSION_TARGET ∧
      (step cfg s (SessionEvent.next env)).1.carsCount = s.carsCount + 1) := by
  have hstart : ∀ (cfg : SessionConfig) (s : SessionState) (q : Question),
      (step cfg s (SessionEvent.startMission q)).1.missionProgress = 0 := by
    intro cfg s q
    simp only [step]
    obtain ⟨_, hp, _, _, _⟩ := ensureBufferFilled_misc
      { selectedSubject := true, questionBuffer := [], fetchingCount := s.fetchingCount,
        hasDragDropOccurred := decide (q.type = QuestionType.DRAG_AND_DROP),
        currentQuestion := some q, missionProgress := 0, carsCount := s.carsCount }
    rw [hp]
  have hcars : ∀ (cfg : SessionConfig) (s : SessionState) (e : SessionEvent),
      (step cfg s e).1.carsCount = s.carsCount ∨
        ((step cfg s e).1.carsCount = s.carsCount + 1 ∧
          (∃ env, e = SessionEvent.next env) ∧ s.selectedSubject = true ∧
          MISSION_TARGET ≤ s.missionProgress + 1) := by
    intro cfg s e
    cases e with
    | startMission q =>
      left
      simp only [step]
      obtain ⟨_, _, hc, _, _⟩ := ensureBufferFilled_misc
        { selectedSubject := true, questionBuffer := [], fetchingCount := s.fetchingCount,
          hasDragDropOccurred := decide (q.type = QuestionType.DRAG_AND_DROP),
          currentQuestion := some q, missionProgress := 0, carsCount := s.carsCount }
      rw [hc]
    | next env =>
      simp only [step]
      split
      · exact Or.inl rfl
      · rename_i hsel
        simp only [Bool.not_eq_true', Bool.not_eq_false] at hsel
        split
        · rename_i hc
          exact Or.inr ⟨rfl, ⟨env, rfl⟩, hsel, hc⟩
        · left
          obtain ⟨_, _, hc⟩ := loadNextQuestion_fields cfg
            { s with missionProgress := s.missionProgress + 1 } env
          rw [hc]
    | topUp =>
      left
      simp only [step]
      exact (ensureBufferFilled_misc s).2.2.1
    | taskComplete q =>
      left
      simp only [step]
      split
      · rfl
      · rfl
    | taskFail => exact Or.inl rfl
    | imageResolve qid url => exact Or.inl rfl
  refine ⟨?_, hstart, ?_, ?_, ?_⟩
  · intro cfg es
    exact runEvents_mission_inv cfg es initialSessionState
      ⟨by simp [initialSessionState, MISSION_TARGET], by simp [initialSessionState]⟩
  · intro cfg s e hne
    cases e with
    | startMission q => exact Or.inr ⟨q, rfl, hstart cfg s q⟩
    | next env =>
      left
      refine ⟨env, rfl, ?_, ?_⟩
      all_goals
        revert hne
        simp only [step]
        split
      · rename_i hsel
        intro hne
        exact absurd rfl hne
      · rename_i hsel
        intro _
        simpa using hsel
      · rename_i hsel
        intro hne
        exact absurd rfl hne
      · rename_i hsel
        split
        · intro _
          rfl
        · intro _
          obtain ⟨hp, _, _⟩ := loadNextQuestion_fields cfg
            { s with missionProgress := s.missionProgress + 1 } env
          rw [hp]
    | topUp =>
      exact absurd (ensureBufferFilled_misc s).2.1 hne
    | taskComplete q =>
      revert hne
      simp only [step]
      split
      · intro hne
        exact absurd rfl hne
      · intro hne
        exact absurd rfl hne
    | taskFail => exact absurd rfl hne
    | imageResolve qid url => exact absurd rfl hne
  · intro cfg s e hsel hlt
    constructor
    · intro hinc
      rcases hcars cfg s e with h | ⟨_, henv, _, hge⟩
      · omega
      · refine ⟨henv, ?_⟩
        simp only [MISSION_TARGET] at hlt hge ⊢
        omega
    · rintro ⟨⟨env, rfl⟩, hcomp⟩
      simp only [step, hsel, Bool.not_true]
      rw [if_neg (by simp)]
      rw [if_pos (by omega)]
  · intro cfg s env hsel hcomp
    simp only [step, hsel, Bool.not_true]
    rw [if_neg (by simp), if_pos (by omega)]
    exact ⟨rfl, by dsimp only; omega, rfl⟩

def cfgDemo : SessionConfig :=
  { subject := Subject.LOGIC, difficulty := 3, hasApiKey := false }

def envDemo : GenEnv :=
  { dragRoll := 1/2, rItem := 0, rTarget1 := 0, rTarget2 := 0, rExtra := 0,
    dndFreshId := 100, countResult := Except.error (), aiRoll := 1/2,
    sampleResult := Except.error (), sampleFreshId := 101,
    aiResponse := Except.error (), aiFreshId := 102,
    rescueResult := Except.ok none, rescueFreshId := 103,
    fallbackRoll := 0, fallbackFreshId := 104 }

def sessionAt4 : SessionState :=
  { selectedSubject := true, questionBuffer := [], fetchingCount := 0,
    hasDragDropOccurred := false, currentQuestion := none, missionProgress := 4,
    carsCount := 0 }

/-- Witness for C7: from an active session with progress 4 out of 5, the
next correct answer grants exactly one car, ends the session, and leaves
the progress exactly at the target. -/
theorem mission_progress_spec_witness :
    ((step cfgDemo sessionAt4 (SessionEvent.next envDemo)).1.selectedSubject = false ∧
      (step cfgDemo sessionAt4 (SessionEvent.next envDemo)).1.missionProgress =
        MISSION_TARGET ∧
      (step cfgDemo sessionAt4 (SessionEvent.next envDemo)).1.carsCount =
        sessionAt4.carsCount + 1) ∧
    ((step cfgDemo sessionAt4 (SessionEvent.next envDemo)).1.carsCount =
        sessionAt4.carsCount + 1 ↔
      (∃ env, SessionEvent.next envDemo = SessionEvent.next env) ∧
        sessionAt4.missionProgress + 1 = MISSION_TARGET) :=
  ⟨mission_progress_spec.2.2.2.2 cfgDemo sessionAt4 envDemo rfl (by decide),
   mission_progress_spec.2.2.2.1 cfgDemo sessionAt4 (SessionEvent.next envDemo) rfl
     (by decide)⟩

/- A GenEnv whose database samples can only return MULTIPLE_CHOICE
   questions.  The app only ever persists MULTIPLE_CHOICE questions
   (fetchFromAIAndSave constructs them and drag-drop questions are never
   saved), so the stores satisfy this. -/
def GenEnv.mcOnly (env : GenEnv) : Prop :=
  (∀ q : Question, env.sampleResult = Except.ok (some q) →
    q.type = QuestionType.MULTIPLE_CHOICE) ∧
  (∀ q : Question, env.rescueResult = Except.ok (some q) →
    q.type = QuestionType.MULTIPLE_CHOICE)

theorem generateQuestionTry_type (env : GenEnv) (hasApiKey : Bool) (difficulty : Nat)
    (q : Question)
    (hs : ∀ r : Question, env.sampleResult = Except.ok (some r) →
      r.type = QuestionType.MULTIPLE_CHOICE)
    (h : generateQuestionTry env hasApiKey difficulty = Except.ok q) :
    q.type = QuestionType.MULTIPLE_CHOICE := by
  unfold generateQuestionTry at h
  cases hcount : env.countResult with
  | error e => rw [hcount] at h; cases h
  | ok n =>
    rw [hcount] at h
    dsimp only at h
    have haiPath : ∀ r : Question,
        (if !hasApiKey then (Except.error () : Except Unit Question)
          else fetchFromAIAndSave hasApiKey difficulty env.aiResponse env.aiFreshId) =
          Except.ok r → r.type = QuestionType.MULTIPLE_CHOICE := by
      intro r hr
      split at hr
      · cases hr
      · unfold fetchFromAIAndSave at hr
        split at hr
        · cases hr
        · cases hresp : env.aiResponse with
          | error e => rw [hresp] at hr; cases hr
          | ok data =>
            rw [hresp] at hr
            cases hr
            rfl
    split at h
    · cases hsample : env.sampleResult with
      | error e => rw [hsample] at h; cases h
      | ok o =>
        cases o with
        | some r =>
          rw [hsample] at h
          cases h
          exact hs r hsample
        | none =>
          rw [hsample] at h
          exact haiPath q h
    · exact haiPath q h

theorem generateQuestionCatch_type (env : GenEnv) (difficulty : Nat)
    (hr : ∀ r : Question, env.rescueResult = Except.ok (some r) →
      r.type = QuestionType.MULTIPLE_CHOICE) :
    (generateQuestionCatch env difficulty).type = QuestionType.MULTIPLE_CHOICE := by
  unfold generateQuestionCatch
  cases hres : env.rescueResult with
  | error e =>
    have hfb : ∀ i : Fin 3,
        (FALLBACK_QUESTIONS.get (Fin.cast FALLBACK_QUESTIONS_length.symm i)).type =
          QuestionType.MULTIPLE_CHOICE := by decide
    exact hfb env.fallbackRoll
  | ok o =>
    cases o with
    | some r => exact hr r hres
    | none =>
      have hfb : ∀ i : Fin 3,
          (FALLBACK_QUESTIONS.get (Fin.cast FALLBACK_QUESTIONS_length.symm i)).type =
            QuestionType.MULTIPLE_CHOICE := by decide
      exact hfb env.fallbackRoll

theorem generateQuestion_no_dnd (env : GenEnv) (hasApiKey : Bool) (subject : Subject)
    (difficulty : Nat) (previousType : Option QuestionType) (hmc : env.mcOnly) :
    (generateQuestion env hasApiKey subject difficulty previousType false).type =
      QuestionType.MULTIPLE_CHOICE := by
  have hbranch : dndBranchTaken env subject difficulty previousType false = false := by
    simp [dndBranchTaken]
  unfold generateQuestion
  rw [hbranch]
  simp only [Bool.false_eq_true, if_false]
  cases htry : generateQuestionTry env hasApiKey difficulty with
  | ok q => exact generateQuestionTry_type env hasApiKey difficulty q hmc.1 htry
  | error e => exact generateQuestionCatch_type env difficulty hmc.2

theorem loadNextQuestion_dnd (cfg : SessionConfig) (s : SessionState) (env : GenEnv)
    (hmc : env.mcOnly) :
    ((loadNextQuestion cfg s env).1.hasDragDropOccurred = true ↔
      (s.hasDragDropOccurred = true ∨
        ∃ q, (loadNextQuestion cfg s env).2 = some q ∧
          q.type = QuestionType.DRAG_AND_DROP)) ∧
    (s.hasDragDropOccurred = true →
      ∀ q, (loadNextQuestion cfg s env).2 = some q →
        q.type = QuestionType.MULTIPLE_CHOICE) := by
  unfold loadNextQuestion
  dsimp only
  split
  · rename_i hidx
    dsimp only
    simp only [List.get_eq_getElem]
    set nextQ := s.questionBuffer[List.findIdx
      (fun q => !(s.hasDragDropOccurred && decide (q.type = QuestionType.DRAG_AND_DROP)))
      s.questionBuffer] with hnext
    have hp : (!(s.hasDragDropOccurred &&
        decide (nextQ.type = QuestionType.DRAG_AND_DROP))) = true := by
      rw [hnext]
      exact List.findIdx_getElem (w := hidx)
    constructor
    · constructor
      · intro hflag
        rcases Bool.or_eq_true_iff.mp hflag with h | h
        · exact Or.inl h
        · exact Or.inr ⟨nextQ, rfl, of_decide_eq_true h⟩
      · rintro (h | ⟨q, hq, hdnd⟩)
        · simp [h]
        · cases hq
          exact Bool.or_eq_true_iff.mpr (Or.inr (decide_eq_true hdnd))
    · intro hflag q hq
      cases hq
      rw [hflag] at hp
      simp only [Bool.true_and, Bool.not_eq_true', decide_eq_false_iff_not] at hp
      cases htype : nextQ.type with
      | MULTIPLE_CHOICE => rfl
      | DRAG_AND_DROP => exact absurd htype hp
  · rename_i hidx
    dsimp only
    have hflagkeep := (ensureBufferFilled_misc
      { s with currentQuestion := some (generateQuestion env cfg.hasApiKey cfg.subject
          cfg.difficulty (Option.map Question.type s.currentQuestion) false) }).2.2.2.1
    have hmcgen := generateQuestion_no_dnd env cfg.hasApiKey cfg.subject cfg.difficulty
      (Option.map Question.type s.currentQuestion) hmc
    constructor
    · rw [hflagkeep]
      constructor
      · intro h
        exact Or.inl h
      · rintro (h | ⟨q, hq, hdnd⟩)
        · exact h
        · cases hq
          rw [hmcgen] at hdnd
          cases hdnd
    · intro hflag q hq
      cases hq
      exact hmcgen

def EventOk : SessionEvent → Prop
  | SessionEvent.next env => env.mcOnly
  | _ => True

theorem trivial_dnd_core (s s2 : SessionState)
    (hflag : s2.hasDragDropOccurred = s.hasDragDropOccurred) :
    (s.hasDragDropOccurred = true →
      s2.hasDragDropOccurred = true ∧
      ∀ q : Question, (none : Option Question) = some q →
        q.type = QuestionType.MULTIPLE_CHOICE) ∧
    (∀ q : Question, (none : Option Question) = some q →
      q.type = QuestionType.DRAG_AND_DROP → s2.hasDragDropOccurred = true) ∧
    (s2.hasDragDropOccurred = true → s.hasDragDropOccurred = true ∨
      ∃ q : Question, (none : Option Question) = some q ∧
        q.type = QuestionType.DRAG_AND_DROP) := by
  refine ⟨fun h => ⟨by rw [hflag]; exact h, ?_⟩, ?_,
    fun h => Or.inl (by rw [← hflag]; exact h)⟩
  · intro q hq
    cases hq
  · intro q hq
    cases hq

theorem step_dnd_core (cfg : SessionConfig) (s : SessionState) (e : SessionEvent)
    (hOk : EventOk e) (hNs : ∀ q, e ≠ SessionEvent.startMission q) :
    (s.hasDragDropOccurred = true →
      (step cfg s e).1.hasDragDropOccurred = true ∧
      ∀ q, (step cfg s e).2 = some q → q.type = QuestionType.MULTIPLE_CHOICE) ∧
    (∀ q, (step cfg s e).2 = some q → q.type = QuestionType.DRAG_AND_DROP →
      (step cfg s e).1.hasDragDropOccurred = true) ∧
    ((step cfg s e).1.hasDragDropOccurred = true → s.hasDragDropOccurred = true ∨
      ∃ q, (step cfg s e).2 = some q ∧ q.type = QuestionType.DRAG_AND_DROP) := by
  cases e with
  | startMission q => exact absurd rfl (hNs q)
  | next env =>
    have hmc : env.mcOnly := hOk
    simp only [step]
    split
    · exact trivial_dnd_core s s rfl
    · split
      · exact trivial_dnd_core s _ rfl
      · obtain ⟨hiff, hmcdel⟩ := loadNextQuestion_dnd cfg
          { s with missionProgress := s.missionProgress + 1 } env hmc
        refine ⟨fun h => ⟨hiff.mpr (Or.inl h), hmcdel h⟩, ?_, ?_⟩
        · intro q hq hdnd
          exact hiff.mpr (Or.inr ⟨q, hq, hdnd⟩)
        · intro h
          rcases hiff.mp h with h2 | h2
          · exact Or.inl h2
          · exact Or.inr h2
  | topUp =>
    simp only [step]
    exact trivial_dnd_core s _ (ensureBufferFilled_misc s).2.2.2.1
  | taskComplete q =>
    simp only [step]
    split
    · exact trivial_dnd_core s s rfl
    · exact trivial_dnd_core s _ rfl
  | taskFail =>
    exact trivial_dnd_core s _ rfl
  | imageResolve qid url =>
    exact trivial_dnd_core s _ rfl

theorem dndDeliveries_zero (cfg : SessionConfig) (es : List SessionEvent) :
    ∀ s : SessionState,
      (∀ e ∈ es, EventOk e ∧ ∀ q, e ≠ SessionEvent.startMission q) →
      s.hasDragDropOccurred = true → dndDeliveries cfg s es = 0 := by
  induction es with
  | nil => intro s _ _; rfl
  | cons e es ih =>
    intro s hes hflag
    obtain ⟨hOk, hNs⟩ := hes e (List.mem_cons_self e es)
    obtain ⟨h1, _, _⟩ := step_dnd_core cfg s e hOk hNs
    obtain ⟨hflag2, hmcdel⟩ := h1 hflag
    simp only [dndDeliveries]
    have hhead : (match (step cfg s e).2 with
        | some q => if q.type = QuestionType.DRAG_AND_DROP then 1 else 0
        | none => 0) = 0 := by
      cases hq : (step cfg s e).2 with
      | none => rfl
      | some q =>
        dsimp only
        rw [hmcdel q hq]
        simp
    rw [hhead, ih (step cfg s e).1 (fun e2 he2 => hes e2 (List.mem_cons_of_mem e he2))
      hflag2]

theorem dndDeliveries_le_one (cfg : SessionConfig) (es : List SessionEvent) :
    ∀ s : SessionState,
      (∀ e ∈ es, EventOk e ∧ ∀ q, e ≠ SessionEvent.startMission q) →
      dndDeliveries cfg s es ≤ 1 := by
  induction es with
  | nil => intro s _; exact Nat.zero_le 1
  | cons e es ih =>
    intro s hes
    obtain ⟨hOk, hNs⟩ := hes e (List.mem_cons_self e es)
    obtain ⟨_, hset, _⟩ := step_dnd_core cfg s e hOk hNs
    have htail : ∀ e2 ∈ es, EventOk e2 ∧ ∀ q, e2 ≠ SessionEvent.startMission q :=
      fun e2 he2 => hes e2 (List.mem_cons_of_mem e he2)
    simp only [dndDeliveries]
    cases hq : (step cfg s e).2 with
    | none =>
      dsimp only
      rw [Nat.zero_add]
      exact ih (step cfg s e).1 htail
    | some q =>
      dsimp only
      by_cases hdnd : q.type = QuestionType.DRAG_AND_DROP
      · rw [if_pos hdnd]
        have hflag2 : (step cfg s e).1.hasDragDropOccurred = true := hset q hq hdnd
        rw [dndDeliveries_zero cfg es (step cfg s e).1 htail hflag2]
      · rw [if_neg hdnd, Nat.zero_add]
        exact ih (step cfg s e).1 htail

theorem loadNextQuestion_prunes (cfg : SessionConfig) (s : SessionState) (env : GenEnv)
    (hflag : s.hasDragDropOccurred = true)
    (hidx : s.questionBuffer.findIdx
      (fun q => !(s.hasDragDropOccurred && decide (q.type = QuestionType.DRAG_AND_DROP))) <
      s.questionBuffer.length) :
    ∀ q ∈ (loadNextQuestion cfg s env).1.questionBuffer,
      q.type ≠ QuestionType.DRAG_AND_DROP := by
  unfold loadNextQuestion
  dsimp only
  rw [dif_pos hidx]
  intro q hq
  dsimp only at hq
  rw [List.mem_map] at hq
  obtain ⟨p, hp, hsnd⟩ := hq
  rw [List.mem_filter] at hp
  obtain ⟨_, hcond⟩ := hp
  rw [Bool.and_eq_true] at hcond
  have h2 := hcond.2
  intro hcontra
  have hptype : p.2.type = QuestionType.DRAG_AND_DROP := by rw [hsnd]; exact hcontra
  rw [hptype] at h2
  simp at h2
  have h3 := h2.2
  rw [hflag] at h3
  cases h3

/-- C1 (amended): over any session segment, i.e. a startMission event
followed by start-free events whose database draws yield only
MULTIPLE_CHOICE questions, at most one DRAG_AND_DROP question is ever
delivered as the current question.  Once the throttle flag is set,
fetchSingleBufferItem computes allowDragDrop = false for new fetches, the
emergency path (which passes allowDragDrop = false) never produces a
DRAG_AND_DROP question, and any delivery served from the buffer prunes
every remaining DRAG_AND_DROP item from the buffer.  (An emergency
delivery taken when no buffered item is eligible leaves the skipped
DRAG_AND_DROP items in the buffer; they are skipped again, never
returned.) -/
theorem dragDrop_at_most_once :
    (∀ (cfg : SessionConfig) (s0 : SessionState) (q0 : Question) (es : List SessionEvent),
      (∀ e ∈ es, EventOk e ∧ ∀ q, e ≠ SessionEvent.startMission q) →
      dndDeliveries cfg s0 (SessionEvent.startMission q0 :: es) ≤ 1) ∧
    (∀ s : SessionState, s.hasDragDropOccurred = true → fetchAllowDragDrop s = false) ∧
    (∀ (env : GenEnv) (hasApiKey : Bool) (subject : Subject) (difficulty : Nat)
      (previousType : Option QuestionType), env.mcOnly →
      (generateQuestion env hasApiKey subject difficulty previousType false).type ≠
        QuestionType.DRAG_AND_DROP) ∧
    (∀ (cfg : SessionConfig) (s : SessionState) (env : GenEnv),
      s.hasDragDropOccurred = true →
      s.questionBuffer.findIdx (fun q => !(s.hasDragDropOccurred &&
        decide (q.type = QuestionType.DRAG_AND_DROP))) < s.questionBuffer.length →
      ∀ q ∈ (loadNextQuestion cfg s env).1.questionBuffer,
        q.type ≠ QuestionType.DRAG_AND_DROP) := by
  refine ⟨?_, ?_, ?_, ?_⟩
  · intro cfg s0 q0 es hes
    simp only [dndDeliveries]
    have hflag1 : (step cfg s0 (SessionEvent.startMission q0)).1.hasDragDropOccurred =
        decide (q0.type = QuestionType.DRAG_AND_DROP) := by
      simp only [step]
      exact (ensureBufferFilled_misc _).2.2.2.1
    by_cases hdnd : q0.type = QuestionType.DRAG_AND_DROP
    · have hzero : dndDeliveries cfg (step cfg s0 (SessionEvent.startMission q0)).1 es = 0 := by
        refine dndDeliveries_zero cfg es _ hes ?_
        rw [hflag1, hdnd]
        simp
      rw [hzero]
      simp [step, hdnd]
    · have hle : dndDeliveries cfg (step cfg s0 (SessionEvent.startMission q0)).1 es ≤ 1 :=
        dndDeliveries_le_one cfg es _ hes
      have hhead : (match (step cfg s0 (SessionEvent.startMission q0)).2 with
          | some q => if q.type = QuestionType.DRAG_AND_DROP then 1 else 0
          | none => 0) = 0 := by
        simp [step, hdnd]
      rw [hhead, Nat.zero_add]
      exact hle
  · intro s h
    simp [fetchAllowDragDrop, h]
  · intro env hasApiKey subject difficulty previousType hmc
    rw [generateQuestion_no_dnd env hasApiKey subject difficulty previousType hmc]
    intro hcontra
    cases hcontra
  · intro cfg s env hflag hidx
    exact loadNextQuestion_prunes cfg s env hflag hidx

def dndQ0 : Question := generateDragDropQuestion 1 0 0 0 0 1

def dndQ1 : Question := generateDragDropQuestion 1 1 1 1 1 2

def s3Demo : SessionState :=
  runEvents cfgDemo initialSessionState
    [SessionEvent.startMission dndQ0, SessionEvent.taskComplete dndQ1]

/-- Counterexample to C1 as stated: after a DRAG_AND_DROP question has
been shown (the throttle flag is set) and a late-resolving fetch has put
another DRAG_AND_DROP question into the buffer, the next delivery is an
emergency delivery that skips the buffered DRAG_AND_DROP item but does
NOT remove it: the item is still sitting in the buffer afterwards, and
the claim says every subsequent delivery removes such items. -/
theorem dragDrop_removal_counterexample :
    s3Demo.hasDragDropOccurred = true ∧
    dndQ1 ∈ s3Demo.questionBuffer ∧
    dndQ1.type = QuestionType.DRAG_AND_DROP ∧
    (step cfgDemo s3Demo (SessionEvent.next envDemo)).2 ≠ none ∧
    dndQ1 ∈ (step cfgDemo s3Demo (SessionEvent.next envDemo)).1.questionBuffer := by
  refine ⟨rfl, ?_, rfl, ?_, ?_⟩
  · decide
  · decide
  · decide

/-- Witness for C1: one concrete session start delivering a DRAG_AND_DROP
question yields at most one such delivery, the set flag forces
allowDragDrop to false, and the emergency generator cannot return a
DRAG_AND_DROP question. -/
theorem dragDrop_at_most_once_witness :
    dndDeliveries cfgDemo initialSessionState [SessionEvent.startMission dndQ0] ≤ 1 ∧
    fetchAllowDragDrop s3Demo = false ∧
    (generateQuestion envDemo false Subject.LOGIC 3 none false).type ≠
      QuestionType.DRAG_AND_DROP :=
  ⟨dragDrop_at_most_once.1 cfgDemo initialSessionState dndQ0 [] (by simp),
   dragDrop_at_most_once.2.1 s3Demo rfl,
   dragDrop_at_most_once.2.2.1 envDemo false Subject.LOGIC 3 none
     ⟨fun q h => absurd h (by simp [envDemo]), fun q h => absurd h (by simp [envDemo])⟩⟩

/-- C5: a completed fetch appends its question at the back of the buffer
(the append, not the fetch start, fixes the position), and
loadNextQuestion always serves the front-most eligible buffered question:
the delivered question sits at the least eligible index and every earlier
index holds a throttled DRAG_AND_DROP, so an eligible earlier-appended
question is never passed over in favour of a later-appended one. -/
theorem fifo_delivery :
    (∀ (cfg : SessionConfig) (s : SessionState) (q : Question), 0 < s.fetchingCount →
      (step cfg s (SessionEvent.taskComplete q)).1.questionBuffer =
        s.questionBuffer ++ [q]) ∧
    (∀ (cfg : SessionConfig) (s : SessionState) (env : GenEnv) (i : Nat)
      (hi : i < s.questionBuffer.length),
      (!(s.hasDragDropOccurred && decide ((s.questionBuffer.get ⟨i, hi⟩).type =
        QuestionType.DRAG_AND_DROP))) = true →
      ∃ hj : s.questionBuffer.findIdx (fun q => !(s.hasDragDropOccurred &&
          decide (q.type = QuestionType.DRAG_AND_DROP))) < s.questionBuffer.length,
        (loadNextQuestion cfg s env).2 = some (s.questionBuffer.get
          ⟨s.questionBuffer.findIdx (fun q => !(s.hasDragDropOccurred &&
            decide (q.type = QuestionType.DRAG_AND_DROP))), hj⟩) ∧
        s.questionBuffer.findIdx (fun q => !(s.hasDragDropOccurred &&
          decide (q.type = QuestionType.DRAG_AND_DROP))) ≤ i ∧
        ∀ (k : Nat) (hk : k < s.questionBuffer.length),
          k < s.questionBuffer.findIdx (fun q => !(s.hasDragDropOccurred &&
            decide (q.type = QuestionType.DRAG_AND_DROP))) →
          (s.hasDragDropOccurred && decide ((s.questionBuffer.get ⟨k, hk⟩).type =
            QuestionType.DRAG_AND_DROP)) = true) := by
  constructor
  · intro cfg s q hpos
    simp only [step]
    rw [if_neg (by omega)]
  · intro cfg s env i hi hp
    simp only [List.get_eq_getElem] at hp
    have hj : s.questionBuffer.findIdx (fun q => !(s.hasDragDropOccurred &&
        decide (q.type = QuestionType.DRAG_AND_DROP))) < s.questionBuffer.length :=
      List.findIdx_lt_length_of_exists ⟨s.questionBuffer[i], List.getElem_mem hi, hp⟩
    refine ⟨hj, ?_, ?_, ?_⟩
    · unfold loadNextQuestion
      rw [dif_pos hj]
    · by_contra hcontra
      push_neg at hcontra
      have := List.not_of_lt_findIdx hcontra
      rw [hp] at this
      cases this
    · intro k hk hklt
      have := List.not_of_lt_findIdx hklt
      simp only [List.get_eq_getElem]
      simpa using this

def mcDemo : Question :=
  { id := 50, type := QuestionType.MULTIPLE_CHOICE, text := "VAD BLIR 2 + 2?",
    options := some ["3", "4"], correctAnswerIndex := some 1, dragDropConfig := none,
    explanation := "4", difficultyLevel := 1, visualSubject := none,
    preloadedImageUrl := none }

def sBufDemo : SessionState :=
  { selectedSubject := true, questionBuffer := [mcDemo], fetchingCount := 1,
    hasDragDropOccurred := false, currentQuestion := none, missionProgress := 0,
    carsCount := 0 }

/-- Witness for C5: on a concrete one-question buffer with one in-flight
fetch, the completion appends at the back and the front question is the
one delivered. -/
theorem fifo_delivery_witness :
    ((step cfgDemo sBufDemo (SessionEvent.taskComplete dndQ1)).1.questionBuffer =
      sBufDemo.questionBuffer ++ [dndQ1]) ∧
    (∃ hj : sBufDemo.questionBuffer.findIdx (fun q => !(sBufDemo.hasDragDropOccurred &&
        decide (q.type = QuestionType.DRAG_AND_DROP))) < sBufDemo.questionBuffer.length,
      (loadNextQuestion cfgDemo sBufDemo envDemo).2 = some (sBufDemo.questionBuffer.get
        ⟨sBufDemo.questionBuffer.findIdx (fun q => !(sBufDemo.hasDragDropOccurred &&
          decide (q.type = QuestionType.DRAG_AND_DROP))), hj⟩) ∧
      sBufDemo.questionBuffer.findIdx (fun q => !(sBufDemo.hasDragDropOccurred &&
        decide (q.type = QuestionType.DRAG_AND_DROP))) ≤ 0 ∧
      ∀ (k : Nat) (hk : k < sBufDemo.questionBuffer.length),
        k < sBufDemo.questionBuffer.findIdx (fun q => !(sBufDemo.hasDragDropOccurred &&
          decide (q.type = QuestionType.DRAG_AND_DROP))) →
        (sBufDemo.hasDragDropOccurred && decide ((sBufDemo.questionBuffer.get ⟨k, hk⟩).type =
          QuestionType.DRAG_AND_DROP)) = true) :=
  ⟨fifo_delivery.1 cfgDemo sBufDemo dndQ1 (by decide),
   fifo_delivery.2 cfgDemo sBufDemo envDemo 0 (by decide) (by decide)⟩

/-- C6: when a background image fetch resolves with a URL, the image is
attached strictly by question identity: every buffered copy with the
matching id gets the image (all other buffer positions are untouched),
the current question gets it exactly when its id matches (covering the
pop-before-attach race), and when neither the buffer nor the current
question references that id the resolution leaves the state unchanged
(the image is discarded); an image resolution never delivers a
question. -/
theorem image_attach_spec (cfg : SessionConfig) (s : SessionState) (qid : Nat)
    (url : String) :
    ((step cfg s (SessionEvent.imageResolve qid url)).1.questionBuffer.length =
      s.questionBuffer.length) ∧
    (∀ i : Nat,
      (step cfg s (SessionEvent.imageResolve qid url)).1.questionBuffer[i]? =
        (s.questionBuffer[i]?).map (fun q =>
          if q.id = qid then { q with preloadedImageUrl := some url } else q)) ∧
    (∀ c : Question, s.currentQuestion = some c →
      (c.id = qid →
        (step cfg s (SessionEvent.imageResolve qid url)).1.currentQuestion =
          some { c with preloadedImageUrl := some url }) ∧
      (c.id ≠ qid →
        (step cfg s (SessionEvent.imageResolve qid url)).1.currentQuestion = some c)) ∧
    (s.currentQuestion = none →
      (step cfg s (SessionEvent.imageResolve qid url)).1.currentQuestion = none) ∧
    ((∀ q ∈ s.questionBuffer, q.id ≠ qid) →
      (∀ c : Question, s.currentQuestion = some c → c.id ≠ qid) →
      (step cfg s (SessionEvent.imageResolve qid url)).1 = s) ∧
    ((step cfg s (SessionEvent.imageResolve qid url)).2 = none) := by
  refine ⟨?_, ?_, ?_, ?_, ?_, rfl⟩
  · simp [step]
  · intro i
    simp only [step]
    rw [List.getElem?_map]
  · intro c hc
    constructor
    · intro hid
      simp [step, hc, hid]
    · intro hid
      simp [step, hc, hid]
  · intro hc
    simp [step, hc]
  · intro hbuf hcur
    simp only [step]
    have hmap : s.questionBuffer.map (fun q =>
        if q.id = qid then { q with preloadedImageUrl := some url } else q) =
        s.questionBuffer := by
      have h1 : ∀ a ∈ s.questionBuffer, (fun q : Question =>
          if q.id = qid then { q with preloadedImageUrl := some url } else q) a = id a :=
        fun a ha => by simp [if_neg (hbuf a ha)]
      rw [List.map_congr_left h1, List.map_id]
    have hcureq : (match s.currentQuestion with
        | some c => if c.id = qid then some { c with preloadedImageUrl := some url }
            else some c
        | none => none) = s.currentQuestion := by
      cases hcur0 : s.currentQuestion with
      | none => rfl
      | some c => simp [if_neg (hcur c hcur0)]
    rw [hmap, hcureq]

def sImgDemo : SessionState :=
  { selectedSubject := true, questionBuffer := [mcDemo], fetchingCount := 0,
    hasDragDropOccurred := true, currentQuestion := some dndQ0, missionProgress := 1,
    carsCount := 0 }

/-- Witness for C6: an image resolving for the question that is now
current is attached to the current question, and an image whose question
is in neither location leaves the state unchanged. -/
theorem image_attach_spec_witness :
    (step cfgDemo sImgDemo (SessionEvent.imageResolve 1 "URL")).1.currentQuestion =
      some { dndQ0 with preloadedImageUrl := some "URL" } ∧
    (step cfgDemo sImgDemo (SessionEvent.imageResolve 999 "URL")).1 = sImgDemo :=
  ⟨((image_attach_spec cfgDemo sImgDemo 1 "URL").2.2.1 dndQ0 rfl).1 (by decide),
   (image_attach_spec cfgDemo sImgDemo 999 "URL").2.2.2.2.1
     (by decide) (fun c hc => by cases hc; decide)⟩
